import Mathlib

/-!
Formal model of the interactive process supervisor and streaming preview
engine of a CLI coding agent.  The definitions below are shallow embeddings
of the Python functions in `agent/tools.py`, `agent/ui.py`, `agent/utils.py`
and `main.py`; strings are modelled as `List Char`, machine state and OS
interaction as explicit records, and the poll loop as a fuel-indexed
recursion whose fuel is provably sufficient.  The theorems at the end of the
file settle the specification's claims about this code.
-/

namespace CodeAgent

/-! ### Python-style string primitives

`containsSub pat s` models Python's `pat in s` (contiguous substring test);
`pyReplace` models `str.replace` (non-overlapping, left to right);
`pyCount` models `str.count`; `pyFind` models `str.find`.
All are fuel-structural so they reduce inside the kernel. -/

def containsSub (pat : List Char) : List Char → Bool
  | [] => pat.isEmpty
  | c :: rest => pat.isPrefixOf (c :: rest) || containsSub pat rest

def pyReplaceAux (pat repl : List Char) : Nat → List Char → List Char
  | 0, s => s
  | _ + 1, [] => []
  | fuel + 1, c :: rest =>
    if !pat.isEmpty && pat.isPrefixOf (c :: rest) then
      repl ++ pyReplaceAux pat repl fuel ((c :: rest).drop pat.length)
    else
      c :: pyReplaceAux pat repl fuel rest

def pyReplace (pat repl s : List Char) : List Char :=
  pyReplaceAux pat repl s.length s

def pyCountAux (pat : List Char) : Nat → List Char → Nat
  | 0, _ => 0
  | _ + 1, [] => 0
  | fuel + 1, c :: rest =>
    if pat.isPrefixOf (c :: rest) then
      1 + pyCountAux pat fuel ((c :: rest).drop pat.length)
    else
      pyCountAux pat fuel rest

def pyCount (pat s : List Char) : Nat :=
  if pat.isEmpty then s.length + 1 else pyCountAux pat s.length s

def pyFindAux (pat : List Char) : Nat → List Char → Nat → Option Nat
  | 0, l, i => if pat.isPrefixOf l then some i else none
  | fuel + 1, l, i =>
    if pat.isPrefixOf l then some i
    else
      match l with
      | [] => none
      | _ :: rest => pyFindAux pat fuel rest (i + 1)

def pyFind (pat s : List Char) : Option Nat :=
  pyFindAux pat s.length s 0

/-- Decimal rendering of a natural number, the digits of Python's
`str(n)` / an f-string interpolation of an int. -/
def natReprAux : Nat → Nat → List Char
  | 0, _ => []
  | fuel + 1, n =>
    if n < 10 then [Char.ofNat (48 + n)]
    else natReprAux fuel (n / 10) ++ [Char.ofNat (48 + n % 10)]

def natRepr (n : Nat) : List Char := natReprAux (n + 1) n

/-- ASCII case folding; models `str.lower` on the alphabet relevant to the
deny-list patterns (which are pure ASCII). -/
def asciiLowerChar (c : Char) : Char :=
  if 'A' ≤ c && c ≤ 'Z' then Char.ofNat (c.toNat + 32) else c

def pyLower (s : List Char) : List Char := s.map asciiLowerChar

/-! ### Deny-list (tools.py, `run_terminal_command`, lines 250-252) -/

def dangerPatterns : List (List Char) :=
  [ ("rm -rf /").data
  , ("rm -rf").data
  , ("sudo").data
  , ("mkfs").data
  , (":()\x7b :|:& \x7d;:").data ]

def isDangerous (cmd : List Char) : Bool :=
  dangerPatterns.any (fun p => containsSub p (pyLower cmd))

/-! ### Log-artifact naming (tools.py, `_sanitize_command_for_filename`) -/

def invalidFilenameChars : List Char :=
  ['<', '>', ':', '"', '/', '\\', '|', '?', '*']

def replaceChar (c r : Char) (s : List Char) : List Char :=
  s.map (fun x => if x = c then r else x)

/-- The `while '__' in sanitized` loop; each pass shortens the string, so
`s.length` passes always reach the fixed point. -/
def collapseDoubles : Nat → List Char → List Char
  | 0, s => s
  | fuel + 1, s =>
    if containsSub ['_', '_'] s then
      collapseDoubles fuel (pyReplace ['_', '_'] ['_'] s)
    else s

def stripUnderscores (s : List Char) : List Char :=
  ((s.dropWhile (fun c => c = '_')).reverse.dropWhile (fun c => c = '_')).reverse

def sanitizeCommandForFilename (cmd : List Char) (timestamp : Nat) : List Char :=
  let s1 := invalidFilenameChars.foldl (fun acc c => replaceChar c '_' acc) cmd
  let s2 := replaceChar ' ' '_' s1
  let s3 := collapseDoubles s2.length s2
  let s4 := if 50 < s3.length then s3.take 50 else s3
  let s5 := stripUnderscores s4
  s5 ++ '_' :: natRepr timestamp ++ (".log").data

/-! ### The child process and its environment

`ChildProc` is the OS-side state of one spawned command: its PID, the PIDs
of the descendant processes it spawned, the poll tick at which `poll()`
first reports an exit (`none` = still running past any horizon), and
whether it dies from a SIGTERM within the supervisor's 1-second wait.
`RunEnv` fixes all external inputs of one `run_terminal_command` call:
the approval-gate answer, the platform, the child's behaviour, the ESC-key
presses per poll tick, the decoded log content as read at a given tick,
whether `taskkill` succeeds, and the spawn timestamp used in the log name. -/

inductive Platform
  | windows
  | posix
deriving DecidableEq

structure ChildProc where
  pid : Nat
  descendants : List Nat
  exitTick : Option Nat
  respondsToTerm : Bool

structure RunEnv where
  approve : Bool
  platform : Platform
  child : ChildProc
  esc : Nat → Bool
  logContentAt : Nat → List Char
  taskkillOk : Bool
  timestamp : Nat

def procAlive (c : ChildProc) (t : Nat) : Bool :=
  match c.exitTick with
  | none => true
  | some e => t < e

/-! ### The poll loop (tools.py lines 288-332)

One tick is one pass of the `while process.poll() is None` loop, i.e. one
0.1-second sleep; the 10-second foreground budget is therefore 100 ticks,
and `time.time() - start_time > max_display_time` first holds at tick 101.
Check order inside one pass mirrors the source: process liveness, ESC key,
elapsed budget.  The recursion carries fuel `maxDisplayTicks + 1`, which is
provably never exhausted because the budget check fires first. -/

def maxDisplayTicks : Nat := 100

inductive LoopOutcome
  | completedAt (t : Nat)
  | cancelledAt (t : Nat)
  | detachedAt (t : Nat)
deriving DecidableEq

def pollLoopAux (env : RunEnv) : Nat → Nat → LoopOutcome
  | fuel, t =>
    if procAlive env.child t = false then .completedAt t
    else if env.esc t then .cancelledAt t
    else if maxDisplayTicks < t then .detachedAt t
    else
      match fuel with
      | 0 => .detachedAt t
      | fuel' + 1 => pollLoopAux env fuel' (t + 1)

def pollLoop (env : RunEnv) : LoopOutcome :=
  pollLoopAux env (maxDisplayTicks + 1) 0

/-! ### Termination actions on cancel (tools.py lines 296-326)

On Windows the source runs `taskkill /F /T /PID pid` (forceful, whole
tree), falling back to `process.kill()` if that raises; on POSIX it runs
`process.terminate()` (SIGTERM to the immediate child only), waits up to
1 second and `process.kill()`s if the child is still alive. -/

inductive KillAction
  | taskkillTree (pid : Nat)
  | killProc (pid : Nat)
  | sigterm (pid : Nat)
  | sigkill (pid : Nat)
deriving DecidableEq

def KillAction.targetPid : KillAction → Nat
  | .taskkillTree p => p
  | .killProc p => p
  | .sigterm p => p
  | .sigkill p => p

def cancelKillActions (env : RunEnv) : List KillAction :=
  match env.platform with
  | .windows =>
    if env.taskkillOk then [.taskkillTree env.child.pid]
    else [.taskkillTree env.child.pid, .killProc env.child.pid]
  | .posix =>
    if env.child.respondsToTerm then [.sigterm env.child.pid]
    else [.sigterm env.child.pid, .sigkill env.child.pid]

/-- OS semantics of the kill actions: which PIDs of the child's process
tree are dead after the actions run.  `taskkill /T` covers the whole tree;
`kill`/`terminate` on the `Popen` handle only ever signal the immediate
child (the source creates no process group). -/
def killedByActions (acts : List KillAction) (c : ChildProc) : List Nat :=
  acts.flatMap fun a =>
    match a with
    | .taskkillTree p => if p = c.pid then p :: c.descendants else [p]
    | .killProc p => [p]
    | .sigterm p => if p = c.pid && c.respondsToTerm then [p] else []
    | .sigkill p => [p]

def survivingAfterCancel (env : RunEnv) : List Nat :=
  (env.child.pid :: env.child.descendants).filter
    (fun q => !((killedByActions (cancelKillActions env) env.child).contains q))

/-! ### run_terminal_command (tools.py lines 238-391) -/

def blockedMsg : List Char :=
  ("보안 경고: 위험한 명령어 패턴이 감지되어 실행이 차단되었습니다.").data

def deniedMsg : List Char :=
  ("사용자가 명령 실행을 거부했습니다.").data

def interruptedMsg : List Char :=
  ("[사용자 중단] 명령어 실행이 취소되었습니다.").data

def noOutputMsg : List Char :=
  ("(출력 없음)").data

def elisionMarker : List Char :=
  ("...(생략)...\n").data

def detachNote (pid : Nat) (logName : List Char) : List Char :=
  ("\n...\n 백그라운드 전환 (PID: ").data ++ natRepr pid
    ++ (")\n 로그 파일: ").data ++ logName

/-- One entry of `app.background_processes` (the dict appended at
tools.py lines 344-350): process handle PID, log file name, command
truncated to 50 characters, and the registration time. -/
structure RegEntry where
  pid : Nat
  logFile : List Char
  command : List Char
  startTick : Nat
deriving DecidableEq

/-- Externally observable side effects of one `run_terminal_command`
call: whether the approval gate was consulted, whether a child process
was spawned, whether the log artifact was created and later deleted,
the entry appended to the background registry (if any), the signals sent
to the child, and whether `app.user_interrupted` was set. -/
structure RunEffects where
  approvalRequested : Bool
  spawned : Bool
  logCreated : Bool
  registryAppend : Option RegEntry
  logDeleted : Bool
  killActions : List KillAction
  interruptFlagSet : Bool
deriving DecidableEq

def noEffects : RunEffects :=
  { approvalRequested := false, spawned := false, logCreated := false
  , registryAppend := none, logDeleted := false, killActions := []
  , interruptFlagSet := false }

inductive RunOutcome
  | blocked (msg : List Char)
  | denied (msg : List Char)
  | completed (summary : List Char)
  | detached (text : List Char)
  | cancelled (msg : List Char)
deriving DecidableEq

/-- Foreground completion summary (tools.py lines 374-377): content over
2000 characters is elided to its last 2000 with a marker; empty content
becomes the `(출력 없음)` placeholder; anything else is returned as-is. -/
def foregroundSummary (output : List Char) : List Char :=
  if 2000 < output.length then
    elisionMarker ++ output.drop (output.length - 2000)
  else if output.isEmpty then noOutputMsg
  else output

def spawnedEffects : RunEffects :=
  { noEffects with approvalRequested := true, spawned := true, logCreated := true }

def cancelEffects (env : RunEnv) : RunEffects :=
  { spawnedEffects with
      killActions := cancelKillActions env
    , logDeleted := true
    , interruptFlagSet := true }

def detachEntry (env : RunEnv) (cmd : List Char) (t : Nat) : RegEntry :=
  { pid := env.child.pid
  , logFile := sanitizeCommandForFilename cmd env.timestamp
  , command := cmd.take 50
  , startTick := t }

/-- The body of `run_terminal_command` up to (and including) the point
where `UserInterruptedException` is raised; `.error` carries the side
effects performed before the raise. -/
def runBody (env : RunEnv) (cmd : List Char) : Except RunEffects (RunOutcome × RunEffects) :=
  if isDangerous cmd then .ok (.blocked blockedMsg, noEffects)
  else if env.approve = false then
    .ok (.denied deniedMsg, { noEffects with approvalRequested := true })
  else
    let lname := sanitizeCommandForFilename cmd env.timestamp
    match pollLoop env with
    | .cancelledAt _ => .error (cancelEffects env)
    | .detachedAt t =>
      .ok (.detached (env.logContentAt t ++ detachNote env.child.pid lname),
           { spawnedEffects with registryAppend := some (detachEntry env cmd t) })
    | .completedAt t =>
      .ok (.completed (foregroundSummary (env.logContentAt t)),
           { spawnedEffects with logDeleted := true })

/-- The complete `run_terminal_command` tool, including its own
`except UserInterruptedException` handler (tools.py lines 381-384): the
raised cancellation is caught inside the function itself, which then
returns the `[사용자 중단]` string normally; an `.error` value would mean
an exception escaping to the caller. -/
def run_terminal_command (env : RunEnv) (cmd : List Char) :
    Except RunEffects (RunOutcome × RunEffects) :=
  match runBody env cmd with
  | .ok r => .ok r
  | .error eff => .ok (.cancelled interruptedMsg, { eff with interruptFlagSet := true })

/-! ### Background registry inspection and kill (tools.py lines 393-499) -/

/-- One line of the `list_background_processes` report: liveness is
re-derived by probing the process (`proc.poll() is None`) at listing
time, hence the `aliveNow` oracle. -/
structure BgReport where
  pid : Nat
  running : Bool
  command : List Char
  logFile : List Char
deriving DecidableEq

def list_background_processes (reg : List RegEntry) (aliveNow : Nat → Bool) :
    List BgReport :=
  reg.map fun e => { pid := e.pid, running := aliveNow e.pid
                   , command := e.command, logFile := e.logFile }

inductive KillBgOutcome
  | noProcesses
  | notFound (pid : Nat)
  | terminated (pid : Nat)
  | forceTerminated (pid : Nat)
  | failed (pid : Nat)
deriving DecidableEq

/-- `kill_background_process`: result, registry afterwards, and the
signals sent.  `taskkillOk` models the `taskkill` return code on Windows,
`responds` whether the POSIX child exits within the 2-second wait after
SIGTERM (otherwise `TimeoutExpired` leads to `kill()`). -/
def kill_background_process (platform : Platform) (taskkillOk responds : Bool)
    (reg : List RegEntry) (pid : Nat) :
    KillBgOutcome × List RegEntry × List KillAction :=
  if reg.isEmpty then (.noProcesses, reg, [])
  else
    match reg.find? (fun e => e.pid == pid) with
    | none => (.notFound pid, reg, [])
    | some e =>
      match platform with
      | .windows =>
        if taskkillOk then (.terminated pid, reg.erase e, [.taskkillTree pid])
        else (.failed pid, reg, [.taskkillTree pid])
      | .posix =>
        if responds then (.terminated pid, reg.erase e, [.sigterm pid])
        else (.forceTerminated pid, reg.erase e, [.sigterm pid, .sigkill pid])

/-! ### The chat loop's reaction to an interrupted tool (main.py lines 208-241)

Events of `agent.stream` are processed one by one; with
`user_interrupted` set, non-tool events are skipped, the first
`ToolMessage` prints the cancellation notice and sets `ready_to_exit`,
and the loop returns upon seeing the next event.  `chatConsume` counts
how many events are consumed before the loop returns. -/

inductive StreamEvent
  | toolMsg
  | aiText
  | aiToolChunk
deriving DecidableEq

def chatConsume (interrupted readyToExit : Bool) : List StreamEvent → Nat
  | [] => 0
  | e :: rest =>
    if readyToExit then 1
    else
      match e with
      | .toolMsg => 1 + chatConsume interrupted (interrupted || readyToExit) rest
      | _ => 1 + chatConsume interrupted readyToExit rest

def chatProcessed (interrupted : Bool) (events : List StreamEvent) : Nat :=
  chatConsume interrupted false events

/-! ### Text width and wrapping (ui.py lines 12-37)

`get_char_width` consults `unicodedata.east_asian_width`, an external
table; it is abstracted as a width function `w : Char → Nat` (ASCII
characters have width 1 in that table).  `expandTabs4` models the
`text.expandtabs(4)` preprocessing. -/

def expandTabs4Aux : List Char → Nat → List Char
  | [], _ => []
  | c :: rest, col =>
    if c = '\t' then
      let k := 4 - col % 4
      List.replicate k ' ' ++ expandTabs4Aux rest (col + k)
    else if c = '\n' || c = '\r' then c :: expandTabs4Aux rest 0
    else c :: expandTabs4Aux rest (col + 1)

def expandTabs4 (s : List Char) : List Char := expandTabs4Aux s 0

def wrapLoop (w : Char → Nat) (width : Nat) : List Char → List Char → Nat → List (List Char)
  | [], cur, _ => if cur.isEmpty then [] else [cur]
  | c :: rest, cur, curW =>
    if width < curW + w c then cur :: wrapLoop w width rest [c] (w c)
    else wrapLoop w width rest (cur ++ [c]) (curW + w c)

def wrap_text_wide (w : Char → Nat) (text : List Char) (width : Nat) : List (List Char) :=
  let t := expandTabs4 text
  let lines := wrapLoop w width t [] 0
  if lines.isEmpty && t.isEmpty then [[]] else lines

/-! ### Streaming preview rendering (ui.py, `PreviewHandler._update_screen`) -/

/-- Unescaping applied to the accumulated field value before display:
`.replace("\\n", "\n").replace('\\"', '"')` in that order. -/
def cleanValue (s : List Char) : List Char :=
  pyReplace ['\\', '"'] ['"'] (pyReplace ['\\', 'n'] ['\n'] s)

/-- The visual lines of the preview window: the cleaned value is split
into logical lines, each non-empty logical line is wide-aware wrapped to
`cols - 6`, the first physical line of a logical line is marked with its
number and continuations with `"."`. -/
def previewVisual (w : Char → Nat) (cols : Nat) (content : List Char) :
    List (List Char × List Char) :=
  let displayWidth := cols - 6
  let realLines := (cleanValue content).splitOn '\n'
  realLines.enum.flatMap fun p =>
    let mark := natRepr (p.1 + 1)
    if p.2.isEmpty then [(mark, [])]
    else
      (wrap_text_wide w p.2 displayWidth).enum.map fun q =>
        (if q.1 = 0 then mark else ['.'], q.2)

/-! ### Repaint bookkeeping (ui.py `TerminalOutputViewer.update` lines
245-289 and `PreviewHandler._update_screen` lines 134-173)

One `RepaintStep` records, for one redraw: the cursor-up amount of the
erase escape emitted before drawing (`0` when nothing was erased), the
number of physical lines printed by this redraw, and the line count
recorded afterwards in `last_printed_lines`. -/

structure RepaintStep where
  eraseUp : Nat
  printedNow : Nat
  recorded : Nat
deriving DecidableEq

/-- Last `maxLines` lines of the decoded log content
(`lines[-max_lines:]`). -/
def viewerTailLines (content : List Char) (maxLines : Nat) : List (List Char) :=
  let lines := content.splitOn '\n'
  if maxLines < lines.length then lines.drop (lines.length - maxLines) else lines

/-- Trace of consecutive `TerminalOutputViewer.update` redraws: before
drawing, the viewer moves up by the previously recorded count and clears;
it then prints the new tail and records its length. -/
def viewerTrace (maxLines : Nat) : Nat → List (List Char) → List RepaintStep
  | _, [] => []
  | last, content :: more =>
    let tail := viewerTailLines content maxLines
    { eraseUp := last, printedNow := tail.length, recorded := tail.length }
      :: viewerTrace maxLines tail.length more

/-- Trace of consecutive `PreviewHandler._update_screen` redraws: when
anything was drawn before, the preview moves up a fixed 2 lines (the last
content line and the trailing separator), reprints from visual line
`last_printed_lines - 1` on plus the separator, and records the full
visual line count. -/
def previewTrace (w : Char → Nat) (cols : Nat) : Nat → List (List Char) → List RepaintStep
  | _, [] => []
  | last, content :: more =>
    let vis := previewVisual w cols content
    { eraseUp := if 0 < last then 2 else 0
    , printedNow := (vis.drop (last - 1)).length + 1
    , recorded := vis.length }
      :: previewTrace w cols vis.length more

/-- The claimed repaint invariant: each redraw erases exactly the line
count recorded by the previous redraw. -/
def eraseMatchesPrev : Nat → List RepaintStep → Bool
  | _, [] => true
  | prev, st :: rest => (st.eraseUp == prev) && eraseMatchesPrev st.recorded rest

/-- The preview's actual erase rule: a fixed 2-line erase whenever the
previous redraw recorded a positive count, none otherwise. -/
def eraseTwoRule : Nat → List RepaintStep → Bool
  | _, [] => true
  | prev, st :: rest =>
    (st.eraseUp == if 0 < prev then 2 else 0) && eraseTwoRule st.recorded rest

/-! ### Streaming-argument parsing (ui.py, `PreviewHandler.handle_chunk`)

The source extracts fields from the accumulated fragment buffer with the
regexes `"filename"\s*:\s*"([^"]+)"`, `"<key>"\s*:\s*"` and `(?<!\\)"`.
The scanners below implement exactly those patterns (leftmost match,
greedy `[^"]+` that must be followed by a quote, one-character negative
lookbehind for the closing quote). -/

def isPySpace (c : Char) : Bool :=
  c = ' ' || c = '\t' || c = '\n' || c = '\r' || c = Char.ofNat 11 || c = Char.ofNat 12

def dropLiteral (lit s : List Char) : Option (List Char) :=
  if lit.isPrefixOf s then some (s.drop lit.length) else none

def tryFilenameAt (s : List Char) : Option (List Char) :=
  match dropLiteral ("\"filename\"").data s with
  | none => none
  | some s1 =>
    match s1.dropWhile isPySpace with
    | ':' :: s3 =>
      match s3.dropWhile isPySpace with
      | '"' :: s5 =>
        let run := s5.takeWhile (fun c => c ≠ '"')
        if run.isEmpty then none
        else if run.length < s5.length then some run else none
      | _ => none
    | _ => none

def findFilenameIn : List Char → Option (List Char)
  | [] => none
  | c :: rest =>
    match tryFilenameAt (c :: rest) with
    | some v => some v
    | none => findFilenameIn rest

def tryKeyAt (key s : List Char) : Option (List Char) :=
  match dropLiteral ('"' :: key ++ ['"']) s with
  | none => none
  | some s1 =>
    match s1.dropWhile isPySpace with
    | ':' :: s3 =>
      match s3.dropWhile isPySpace with
      | '"' :: s5 => some s5
      | _ => none
    | _ => none

def findContentAfterKey (key : List Char) : List Char → Option (List Char)
  | [] => none
  | c :: rest =>
    match tryKeyAt key (c :: rest) with
    | some v => some v
    | none => findContentAfterKey key rest

def unescapedQuoteIdx : Option Char → Nat → List Char → Option Nat
  | _, _, [] => none
  | prev, i, c :: rest =>
    if c = '"' && prev ≠ some '\\' then some i
    else unescapedQuoteIdx (some c) (i + 1) rest

/-- `PreviewHandler` state after `start_session`/`handle_chunk` calls. -/
structure PHState where
  previewActive : Bool
  headerPrinted : Bool
  targetKey : List Char
  filename : Option (List Char)
  argsBuffer : List Char
  fullValue : List Char
deriving DecidableEq

def startSession (toolName : List Char) : PHState :=
  { previewActive := true
  , headerPrinted := false
  , targetKey := if toolName = ("write_file").data then ("content").data
                 else ("replacement_text").data
  , filename := none
  , argsBuffer := []
  , fullValue := [] }

/-- The header title printed by `_print_header`. -/
def headerTitle (st : PHState) : List Char :=
  match st.filename with
  | some f => f
  | none => ("File Preview").data

/-- One `handle_chunk` call: returns the new state, whether the header
was printed during this call, and whether the terminating quote was just
found (`force_update`). -/
def handle_chunk (st : PHState) (frag : List Char) : PHState × Bool × Bool :=
  if st.previewActive = false || frag.isEmpty then (st, false, false)
  else
    let buf := st.argsBuffer ++ frag
    let fn :=
      match st.filename with
      | some f => some f
      | none => findFilenameIn buf
    let headerEmit := fn.isSome && !st.headerPrinted
    let hp := st.headerPrinted || headerEmit
    let cf : List Char × Bool :=
      match findContentAfterKey st.targetKey buf with
      | none => ([], false)
      | some potential =>
        match unescapedQuoteIdx none 0 potential with
        | some i => (potential.take i, true)
        | none => (potential, false)
    ({ st with argsBuffer := buf, filename := fn, headerPrinted := hp
             , fullValue := cf.1 }, headerEmit, cf.2)

def feedAll (st : PHState) (frags : List (List Char)) : PHState :=
  frags.foldl (fun s f => (handle_chunk s f).1) st

/-- Boolean form of "a header is only ever printed once a filename has
been recognized in the buffer". -/
def headerOnlyWithFilename (st : PHState) : Bool :=
  !st.headerPrinted || st.filename.isSome

/-! ### Non-blocking cancel poll (utils.py, `check_esc_pressed`)

The console oracle models the OS primitives: `msvcrt.kbhit`/`getch` on
Windows, `select.select` on `sys.stdin` with timeout 0 plus
`sys.stdin.read(1)` on POSIX.  `readOne = none` models `read(1)`
returning `''` (end of file, the state of a non-interactive stdin with no
pending data); per their OS contracts these primitives are total on an
open standard input, so the embedding is a total function. -/

structure Console where
  isWindows : Bool
  kbhit : Bool
  nextKey : Char
  selectReady : Bool
  readOne : Option Char

def escChar : Char := Char.ofNat 27

def check_esc_pressed (c : Console) : Bool :=
  if c.isWindows then c.kbhit && (c.nextKey == escChar)
  else c.selectReady && (c.readOne == some escChar)

/-- A console with no TTY attached: on Windows there is no console input
buffer so `kbhit()` reports nothing; on POSIX `read(1)` yields end of
file. -/
def nonInteractiveConsole (c : Console) : Prop :=
  (c.isWindows = true → c.kbhit = false) ∧ (c.isWindows = false → c.readOne = none)

instance (c : Console) : Decidable (nonInteractiveConsole c) := by
  unfold nonInteractiveConsole; infer_instance

/-! ### Path safety and the file tools (utils.py `is_safe_path`,
tools.py `list_files` / `read_file` / `write_file` / `edit_file`)

Paths are modelled lexically: a path is a flag (absolute or relative)
plus components, and `resolve()` is normalization (`.` dropped, `..`
pops, clamped at the root as `pathlib` does).  `BASE_DIR` is an already
resolved absolute directory, given by its component list. -/

abbrev PathComps := List (List Char)

structure PyPath where
  absolute : Bool
  comps : PathComps
deriving DecidableEq

def normalizeComps (cs : PathComps) : PathComps :=
  cs.foldl
    (fun acc c =>
      if c = (".").data then acc
      else if c = ("..").data then acc.dropLast
      else acc ++ [c])
    []

/-- `(BASE_DIR / p).resolve()`; `pathlib`'s `/` discards the left side
when the right side is absolute, which is also exactly the branch
`is_safe_path` takes for absolute inputs. -/
def resolveUnder (base : PathComps) (p : PyPath) : PathComps :=
  if p.absolute then normalizeComps p.comps
  else normalizeComps (base ++ p.comps)

/-- utils.py lines 41-48: the resolved target must be `BASE_DIR` itself
or have `BASE_DIR` among its parents (i.e. as a strict prefix).  The
`except` branch returning `False` has no counterpart because lexical
resolution is total. -/
def is_safe_path (p : PyPath) (base : PathComps) : Bool :=
  let r := resolveUnder base p
  (r == base) || (base.isPrefixOf r && !(r == base))

/-- Filesystem oracle: which resolved paths exist, which are directories,
and the content of regular readable files. -/
structure Fs where
  existsPath : PathComps → Bool
  isDir : PathComps → Bool
  fileContent : PathComps → Option (List Char)

/-- Filesystem accesses a tool performs, tagged with the resolved path
they touch.  `ensureParentDirs t` is `t.parent.mkdir(parents=True,
exist_ok=True)`: it creates only missing ancestors of `t`. -/
inductive FsEffect
  | statPath (p : PathComps)
  | readFileAt (p : PathComps)
  | listDirAt (p : PathComps)
  | ensureParentDirs (target : PathComps)
  | writeFileAt (p : PathComps) (content : List Char)
deriving DecidableEq

def FsEffect.target : FsEffect → PathComps
  | .statPath p => p
  | .readFileAt p => p
  | .listDirAt p => p
  | .ensureParentDirs p => p
  | .writeFileAt p _ => p

def allEffectsUnder (base : PathComps) (effs : List FsEffect) : Bool :=
  effs.all fun e => base.isPrefixOf e.target

def listWarningMsg : List Char :=
  ("보안 경고: 작업 디렉토리 외부 경로는 조회할 수 없습니다.").data

def readWarningMsg : List Char :=
  ("보안 경고: 작업 디렉토리 외부 파일은 읽을 수 없습니다.").data

def writeWarningMsg : List Char :=
  ("보안 경고: 작업 디렉토리 외부에 파일을 쓸 수 없습니다.").data

def editWarningMsg : List Char :=
  ("보안 경고: 작업 디렉토리 외부 파일은 수정할 수 없습니다.").data

def pathText (p : PathComps) : List Char :=
  p.foldl (fun acc c => acc ++ '/' :: c) []

def inputText (p : PyPath) : List Char :=
  (if p.absolute then ['/'] else []) ++
    match p.comps with
    | [] => []
    | c :: rest => rest.foldl (fun acc x => acc ++ '/' :: x) c

/-- `list_files` (tools.py lines 80-102).  The tree renderer
`_build_tree` only formats directory listings and is irrelevant to the
claims; it is abstracted as the oracle `treeFn`, returning the tree text
and the item count for a resolved directory. -/
def list_files (treeFn : PathComps → List Char × Nat) (fs : Fs)
    (base : PathComps) (p : PyPath) : List Char × List FsEffect :=
  if !is_safe_path p base then (listWarningMsg, [])
  else
    let r := resolveUnder base p
    if !fs.existsPath r then (("경로가 존재하지 않습니다.").data, [.statPath r])
    else if !fs.isDir r then (("디렉터리가 아닙니다.").data, [.statPath r])
    else
      let tc := treeFn r
      (pathText r ++ '\n' :: tc.1 ++ ("\n총 ").data ++ natRepr tc.2 ++ ("개 항목").data,
       [.statPath r, .listDirAt r])

/-- `read_file` (tools.py lines 104-119). -/
def read_file (fs : Fs) (base : PathComps) (p : PyPath) : List Char × List FsEffect :=
  if !is_safe_path p base then (readWarningMsg, [])
  else
    let r := resolveUnder base p
    match fs.fileContent r with
    | none => (("파일이 아니거나 존재하지 않습니다.").data, [.statPath r])
    | some content => (("내용:\n").data ++ content, [.statPath r, .readFileAt r])

/-- `write_file` (tools.py lines 121-134); `approve` is the approval-gate
answer. -/
def write_file (base : PathComps) (approve : Bool) (p : PyPath)
    (content : List Char) : List Char × List FsEffect :=
  if !is_safe_path p base then (writeWarningMsg, [])
  else
    let r := resolveUnder base p
    if !approve then (("사용자가 파일 쓰기를 거부했습니다.").data, [])
    else (("저장 완료: ").data ++ pathText r,
          [.ensureParentDirs r, .writeFileAt r content])

/-- `edit_file` (tools.py lines 172-209). -/
def edit_file (fs : Fs) (base : PathComps) (approve : Bool) (p : PyPath)
    (targetText replacementText : List Char) : List Char × List FsEffect :=
  if !is_safe_path p base then (editWarningMsg, [])
  else
    let r := resolveUnder base p
    if !fs.existsPath r then (("오류: 파일이 존재하지 않습니다.").data, [.statPath r])
    else
      match fs.fileContent r with
      | none => (("수정 오류: 파일을 읽을 수 없습니다.").data, [.statPath r])
      | some content =>
        let count := pyCount targetText content
        if count = 0 then
          (("오류: 파일에서 target_text를 찾을 수 없습니다.").data,
           [.statPath r, .readFileAt r])
        else if 1 < count then
          (("오류: target_text가 ").data ++ natRepr count
             ++ ("번 발견되었습니다. 더 긴 문맥을 사용하여 유일한 부분을 지정해주세요.").data,
           [.statPath r, .readFileAt r])
        else if !approve then
          (("사용자가 파일 수정을 거부했습니다.").data, [.statPath r, .readFileAt r])
        else
          let startLine :=
            match pyFind targetText content with
            | some i => (content.take i).count '\n' + 1
            | none => 0
          (("수정 완료: ").data ++ inputText p ++ (" (").data
             ++ natRepr startLine ++ ("번째 줄 수정됨)").data,
           [.statPath r, .readFileAt r,
            .writeFileAt r (pyReplace targetText replacementText content)])

/-! ### Concrete fixtures used to evaluate the theorems on closed inputs -/

def envBlockedW : RunEnv :=
  { approve := true, platform := .posix
  , child := { pid := 1, descendants := [], exitTick := none, respondsToTerm := true }
  , esc := fun _ => false, logContentAt := fun _ => [], taskkillOk := true, timestamp := 0 }

def envEmptyOut : RunEnv :=
  { approve := true, platform := .posix
  , child := { pid := 4, descendants := [], exitTick := some 0, respondsToTerm := true }
  , esc := fun _ => false, logContentAt := fun _ => [], taskkillOk := true, timestamp := 0 }

def envQuickDone : RunEnv :=
  { approve := true, platform := .posix
  , child := { pid := 4, descendants := [], exitTick := some 0, respondsToTerm := true }
  , esc := fun _ => false, logContentAt := fun _ => ("done").data
  , taskkillOk := true, timestamp := 0 }

def envDetachW : RunEnv :=
  { approve := true, platform := .posix
  , child := { pid := 7, descendants := [], exitTick := none, respondsToTerm := true }
  , esc := fun _ => false, logContentAt := fun _ => ("out").data
  , taskkillOk := true, timestamp := 0 }

def envCancelX4 : RunEnv :=
  { approve := true, platform := .posix
  , child := { pid := 5, descendants := [77], exitTick := none, respondsToTerm := true }
  , esc := fun t => t == 0, logContentAt := fun _ => [], taskkillOk := true, timestamp := 0 }

def envCancelW4 : RunEnv :=
  { approve := true, platform := .posix
  , child := { pid := 6, descendants := [], exitTick := none, respondsToTerm := true }
  , esc := fun t => t == 0, logContentAt := fun _ => [], taskkillOk := true, timestamp := 0 }

def envCancelX5 : RunEnv :=
  { approve := true, platform := .posix
  , child := { pid := 9, descendants := [], exitTick := none, respondsToTerm := true }
  , esc := fun t => t == 0, logContentAt := fun _ => [], taskkillOk := true, timestamp := 0 }

def envCancelW5 : RunEnv :=
  { approve := true, platform := .posix
  , child := { pid := 3, descendants := [], exitTick := none, respondsToTerm := true }
  , esc := fun t => t == 0, logContentAt := fun _ => [], taskkillOk := true, timestamp := 0 }

def previewFrag1 : List Char := ("\x7b\"filename\":\"a.txt\",\"content\":\"line1\\n").data

def previewFrag2 : List Char := ("line2\"\x7d").data

def phInit : PHState := startSession (("write_file").data)

def fsEmptyW : Fs :=
  { existsPath := fun _ => false, isDir := fun _ => false, fileContent := fun _ => none }

def baseW : PathComps := [("w").data]

def badPathW : PyPath := { absolute := false, comps := [("..").data, ("x").data] }

/-! ## Helper lemmas -/

theorem maxDisplayTicks_eq : maxDisplayTicks = 100 := rfl

theorem pollLoopAux_completed (env : RunEnv) (e : Nat)
    (he : env.child.exitTick = some e) (hbud : e ≤ maxDisplayTicks + 1)
    (hesc : ∀ s, s < e → env.esc s = false) :
    ∀ fuel t, t ≤ e → e ≤ t + fuel → pollLoopAux env fuel t = .completedAt e := by
  have hm := maxDisplayTicks_eq
  intro fuel
  induction fuel with
  | zero =>
    intro t ht hle
    have : t = e := by omega
    subst this
    rw [pollLoopAux]
    simp [procAlive, he]
  | succ f ih =>
    intro t ht hle
    rcases Nat.eq_or_lt_of_le ht with rfl | hlt
    · rw [pollLoopAux]
      simp [procAlive, he]
    · rw [pollLoopAux]
      have ha : procAlive env.child t = true := by
        simp only [procAlive, he]
        simpa using hlt
      have hnb : ¬ (maxDisplayTicks < t) := by omega
      simp only [ha, hesc t hlt, hnb, Bool.true_eq_false, Bool.false_eq_true,
        if_false, ite_false]
      exact ih (t + 1) hlt (by omega)

theorem pollLoopAux_cancelled (env : RunEnv) (k : Nat)
    (hbud : k ≤ maxDisplayTicks + 1)
    (halive : ∀ t, t ≤ k → procAlive env.child t = true)
    (hesc : ∀ t, t < k → env.esc t = false) (hk : env.esc k = true) :
    ∀ fuel t, t ≤ k → k ≤ t + fuel → pollLoopAux env fuel t = .cancelledAt k := by
  have hm := maxDisplayTicks_eq
  intro fuel
  induction fuel with
  | zero =>
    intro t ht hle
    have : t = k := by omega
    subst this
    rw [pollLoopAux]
    simp [halive t le_rfl, hk]
  | succ f ih =>
    intro t ht hle
    rcases Nat.eq_or_lt_of_le ht with rfl | hlt
    · rw [pollLoopAux]
      simp [halive t le_rfl, hk]
    · rw [pollLoopAux]
      have hnb : ¬ (maxDisplayTicks < t) := by omega
      simp only [halive t (Nat.le_of_lt hlt), hesc t hlt, hnb,
        Bool.true_eq_false, Bool.false_eq_true, if_false, ite_false]
      exact ih (t + 1) hlt (by omega)

theorem pollLoopAux_detached (env : RunEnv)
    (halive : ∀ t, t ≤ maxDisplayTicks + 1 → procAlive env.child t = true)
    (hesc : ∀ t, t ≤ maxDisplayTicks + 1 → env.esc t = false) :
    ∀ fuel t, t ≤ maxDisplayTicks + 1 → maxDisplayTicks + 1 ≤ t + fuel →
      pollLoopAux env fuel t = .detachedAt (maxDisplayTicks + 1) := by
  have hm := maxDisplayTicks_eq
  intro fuel
  induction fuel with
  | zero =>
    intro t ht hle
    have : t = maxDisplayTicks + 1 := by omega
    subst this
    rw [pollLoopAux]
    have hgt : maxDisplayTicks < maxDisplayTicks + 1 := by omega
    simp [halive _ le_rfl, hesc _ le_rfl, hgt]
  | succ f ih =>
    intro t ht hle
    rcases Nat.eq_or_lt_of_le ht with rfl | hlt
    · rw [pollLoopAux]
      have hgt : maxDisplayTicks < maxDisplayTicks + 1 := by omega
      simp [halive _ le_rfl, hesc _ le_rfl, hgt]
    · rw [pollLoopAux]
      have hnb : ¬ (maxDisplayTicks < t) := by omega
      simp only [halive t (Nat.le_of_lt hlt), hesc t (Nat.le_of_lt hlt), hnb,
        Bool.true_eq_false, Bool.false_eq_true, if_false, ite_false]
      exact ih (t + 1) hlt (by omega)

theorem pollLoop_completed (env : RunEnv) (e : Nat)
    (he : env.child.exitTick = some e) (hbud : e ≤ maxDisplayTicks + 1)
    (hesc : ∀ s, s < e → env.esc s = false) :
    pollLoop env = .completedAt e :=
  pollLoopAux_completed env e he hbud hesc (maxDisplayTicks + 1) 0
    (Nat.zero_le e) (by omega)

theorem pollLoop_cancelled (env : RunEnv) (k : Nat)
    (hbud : k ≤ maxDisplayTicks + 1)
    (halive : ∀ t, t ≤ k → procAlive env.child t = true)
    (hesc : ∀ t, t < k → env.esc t = false) (hk : env.esc k = true) :
    pollLoop env = .cancelledAt k :=
  pollLoopAux_cancelled env k hbud halive hesc hk (maxDisplayTicks + 1) 0
    (Nat.zero_le k) (by omega)

theorem pollLoop_detached (env : RunEnv)
    (halive : ∀ t, t ≤ maxDisplayTicks + 1 → procAlive env.child t = true)
    (hesc : ∀ t, t ≤ maxDisplayTicks + 1 → env.esc t = false) :
    pollLoop env = .detachedAt (maxDisplayTicks + 1) :=
  pollLoopAux_detached env halive hesc (maxDisplayTicks + 1) 0
    (Nat.zero_le _) (by omega)

theorem chatConsume_stop (e : StreamEvent) (rest : List StreamEvent) :
    ∀ pre : List StreamEvent, StreamEvent.toolMsg ∉ pre →
      chatConsume true false (pre ++ .toolMsg :: e :: rest) = pre.length + 2 := by
  intro pre
  induction pre with
  | nil => intro _; rfl
  | cons a pre' ih =>
    intro h
    have ha : a ≠ StreamEvent.toolMsg := fun hc => h (hc ▸ List.mem_cons_self a pre')
    have h' : StreamEvent.toolMsg ∉ pre' := fun hc => h (List.mem_cons_of_mem a hc)
    cases a with
    | toolMsg => exact absurd rfl ha
    | aiText =>
      rw [List.cons_append, chatConsume]
      simp only [List.length_cons]
      rw [ih h']
      simp only [Bool.false_eq_true, if_false]
      omega
      exact ha
    | aiToolChunk =>
      rw [List.cons_append, chatConsume]
      simp only [List.length_cons]
      rw [ih h']
      simp only [Bool.false_eq_true, if_false]
      omega
      exact ha

theorem handle_chunk_header_inv (st : PHState) (f : List Char)
    (h : headerOnlyWithFilename st = true) :
    headerOnlyWithFilename ((handle_chunk st f).1) = true := by
  unfold handle_chunk
  split
  · exact h
  · rcases hsf : st.filename with _ | f0
    · rcases hhp : st.headerPrinted
      · rcases hfn : findFilenameIn (st.argsBuffer ++ f) with _ | v <;>
          simp [headerOnlyWithFilename, hsf, hhp, hfn]
      · exfalso
        rw [headerOnlyWithFilename, hsf, hhp] at h
        simp at h
    · simp [headerOnlyWithFilename, hsf]

theorem viewerTrace_invariant (maxLines : Nat) :
    ∀ (draws : List (List Char)) (last : Nat),
      eraseMatchesPrev last (viewerTrace maxLines last draws) = true := by
  intro draws
  induction draws with
  | nil => intro last; rfl
  | cons c more ih =>
    intro last
    rw [viewerTrace, eraseMatchesPrev]
    simp [ih]

theorem viewerTrace_printed_eq_recorded (maxLines : Nat) :
    ∀ (draws : List (List Char)) (last : Nat),
      ((viewerTrace maxLines last draws).all
        (fun st => st.printedNow == st.recorded)) = true := by
  intro draws
  induction draws with
  | nil => intro last; rfl
  | cons c more ih =>
    intro last
    rw [viewerTrace]
    simp [ih]

theorem previewTrace_eraseTwo (w : Char → Nat) (cols : Nat) :
    ∀ (draws : List (List Char)) (last : Nat),
      eraseTwoRule last (previewTrace w cols last draws) = true := by
  intro draws
  induction draws with
  | nil => intro last; rfl
  | cons c more ih =>
    intro last
    rw [previewTrace, eraseTwoRule]
    simp [ih]

theorem isPrefixOf_self (l : PathComps) : l.isPrefixOf l = true := by
  induction l with
  | nil => rfl
  | cons a t ih => simp [List.isPrefixOf, ih]

theorem is_safe_path_eq (p : PyPath) (base : PathComps) :
    is_safe_path p base = base.isPrefixOf (resolveUnder base p) := by
  unfold is_safe_path
  cases hbe : (resolveUnder base p == base)
  · simp [hbe]
  · have heq : resolveUnder base p = base := by simpa using hbe
    simp [hbe, heq, isPrefixOf_self]

/-! ## Claims -/

/-- C1: a command that contains, compared case-insensitively, one of the
deny-list substrings is rejected with the blocked-command message before
the approval gate, the spawn, or the log artifact: the run returns the
rejection and its effect record is entirely empty. -/
theorem C1_denylisted_command_blocked_without_spawn (env : RunEnv) (cmd : List Char)
    (h : ∃ p ∈ dangerPatterns, containsSub (pyLower p) (pyLower cmd) = true) :
    run_terminal_command env cmd = .ok (.blocked blockedMsg, noEffects) := by
  obtain ⟨p, hp, hc⟩ := h
  have hd : isDangerous cmd = true := by
    apply List.any_eq_true.mpr
    refine ⟨p, hp, ?_⟩
    have hlow : pyLower p = p := by
      simp only [dangerPatterns, List.mem_cons, List.not_mem_nil, or_false] at hp
      rcases hp with rfl | rfl | rfl | rfl | rfl <;> decide
    rw [← hlow]
    exact hc
  simp [run_terminal_command, runBody, hd]

/-- C1 witness: `SUDO reboot` case-insensitively contains the deny-list
entry `sudo` and is blocked with no effects. -/
theorem C1_denylisted_command_blocked_without_spawn_witness :
    run_terminal_command envBlockedW (("SUDO reboot").data)
      = .ok (.blocked blockedMsg, noEffects) :=
  C1_denylisted_command_blocked_without_spawn envBlockedW (("SUDO reboot").data)
    ⟨("sudo").data, by decide, by decide⟩

/-- C2 (amended): for an approved, non-blocked command whose child exits
at tick `e` within the foreground budget with no cancel keystroke, the
run returns the foreground summary of the decoded log content and the
log artifact is deleted; the summary is the content unchanged when it is
non-empty and at most 2000 characters, the `(출력 없음)` placeholder when
the content is empty, and the elision marker followed by exactly the
last 2000 characters when longer. -/
theorem C2_foreground_completion_summary_and_cleanup (env : RunEnv) (cmd : List Char)
    (e : Nat)
    (hd : isDangerous cmd = false) (ha : env.approve = true)
    (he : env.child.exitTick = some e) (hbud : e ≤ maxDisplayTicks)
    (hesc : ∀ t, t < e → env.esc t = false) :
    run_terminal_command env cmd
      = .ok (.completed (foregroundSummary (env.logContentAt e)),
             { spawnedEffects with logDeleted := true })
    ∧ (∀ output : List Char, output ≠ [] → output.length ≤ 2000 →
         foregroundSummary output = output)
    ∧ foregroundSummary [] = noOutputMsg
    ∧ (∀ output : List Char, 2000 < output.length →
         foregroundSummary output
           = elisionMarker ++ output.drop (output.length - 2000)) := by
  refine ⟨?_, ?_, by decide, ?_⟩
  · have hpoll : pollLoop env = .completedAt e :=
      pollLoop_completed env e he (Nat.le_succ_of_le hbud) hesc
    simp [run_terminal_command, runBody, hd, ha, hpoll]
  · intro output hne hlen
    have h1 : ¬ (2000 < output.length) := by omega
    have h2 : output.isEmpty = false := by
      cases output with
      | nil => exact absurd rfl hne
      | cons a t => rfl
    simp [foregroundSummary, h1, h2]
  · intro output hlen
    simp [foregroundSummary, hlen]

/-- C2 witness: an approved `echo` that exits immediately with log content
`done` returns exactly that content, with the artifact deleted. -/
theorem C2_foreground_completion_summary_and_cleanup_witness :
    run_terminal_command envQuickDone (("echo hi").data)
      = .ok (.completed (foregroundSummary (envQuickDone.logContentAt 0)),
             { spawnedEffects with logDeleted := true })
    ∧ foregroundSummary (("done").data) = ("done").data := by
  have h := C2_foreground_completion_summary_and_cleanup envQuickDone
    (("echo hi").data) 0 (by decide) rfl rfl (by decide)
    (fun t ht => absurd ht (Nat.not_lt_zero t))
  exact ⟨h.1, h.2.1 (("done").data) (by decide) (by decide)⟩

/-- C2 counterexample: the claim says the returned output equals the log
content unchanged whenever that content is at most 2000 characters long,
but for an approved command with an *empty* log the code returns the
`(출력 없음)` placeholder, which differs from the empty content. -/
theorem C2_empty_output_placeholder_counterexample :
    run_terminal_command envEmptyOut (("echo hi").data)
      = .ok (.completed noOutputMsg, { spawnedEffects with logDeleted := true })
    ∧ envEmptyOut.logContentAt 0 = ([] : List Char)
    ∧ noOutputMsg ≠ ([] : List Char) :=
  ⟨rfl, rfl, by decide⟩

/-- C3: an approved command still alive and uncancelled when the budget
tick passes is detached: the run returns the partial output plus the PID
and log-artifact name, the process is never signalled (empty kill-action
list in the effect record), the appended registry entry carries the
process PID, the truncated command, the start time and the log-artifact
name, and an immediately following `list_background_processes` (with the
process still probing as alive) reports that entry as running. -/
theorem C3_budget_exceeded_detaches_to_registry (env : RunEnv) (cmd : List Char)
    (aliveNow : Nat → Bool)
    (hd : isDangerous cmd = false) (ha : env.approve = true)
    (halive : ∀ t, t ≤ maxDisplayTicks + 1 → procAlive env.child t = true)
    (hesc : ∀ t, t ≤ maxDisplayTicks + 1 → env.esc t = false)
    (hAliveNow : aliveNow env.child.pid = true) :
    run_terminal_command env cmd
      = .ok (.detached (env.logContentAt (maxDisplayTicks + 1)
               ++ detachNote env.child.pid (sanitizeCommandForFilename cmd env.timestamp)),
             { spawnedEffects with
                 registryAppend := some (detachEntry env cmd (maxDisplayTicks + 1)) })
    ∧ ({ spawnedEffects with
           registryAppend := some (detachEntry env cmd (maxDisplayTicks + 1))
       } : RunEffects).killActions = []
    ∧ detachEntry env cmd (maxDisplayTicks + 1)
        = { pid := env.child.pid
          , logFile := sanitizeCommandForFilename cmd env.timestamp
          , command := cmd.take 50
          , startTick := maxDisplayTicks + 1 }
    ∧ ∀ reg : List RegEntry,
        ({ pid := env.child.pid, running := true, command := cmd.take 50
         , logFile := sanitizeCommandForFilename cmd env.timestamp } : BgReport)
          ∈ list_background_processes
              (reg ++ [detachEntry env cmd (maxDisplayTicks + 1)]) aliveNow := by
  refine ⟨?_, rfl, rfl, ?_⟩
  · have hpoll : pollLoop env = .detachedAt (maxDisplayTicks + 1) :=
      pollLoop_detached env halive hesc
    simp [run_terminal_command, runBody, hd, ha, hpoll]
  · intro reg
    simp only [list_background_processes, List.map_append, List.mem_append,
      List.map_cons, List.map_nil, List.mem_singleton]
    right
    simp [detachEntry, hAliveNow]

/-- C3 witness: `sleep 30` with a never-exiting child and no keystrokes
detaches at tick 101 and is listed as running. -/
theorem C3_budget_exceeded_detaches_to_registry_witness :
    run_terminal_command envDetachW (("sleep 30").data)
      = .ok (.detached (envDetachW.logContentAt (maxDisplayTicks + 1)
               ++ detachNote envDetachW.child.pid
                    (sanitizeCommandForFilename (("sleep 30").data) envDetachW.timestamp)),
             { spawnedEffects with
                 registryAppend :=
                   some (detachEntry envDetachW (("sleep 30").data) (maxDisplayTicks + 1)) })
    ∧ ({ pid := envDetachW.child.pid, running := true
       , command := (("sleep 30").data).take 50
       , logFile := sanitizeCommandForFilename (("sleep 30").data) envDetachW.timestamp
       } : BgReport)
        ∈ list_background_processes
            ([] ++ [detachEntry envDetachW (("sleep 30").data) (maxDisplayTicks + 1)])
            (fun _ => true) := by
  have h := C3_budget_exceeded_detaches_to_registry envDetachW (("sleep 30").data)
    (fun _ => true) (by decide) rfl (fun t _ => rfl) (fun t _ => rfl) rfl
  exact ⟨h.1, h.2.2.2 []⟩

theorem contains_of_mem {q : Nat} {l : List Nat} (h : q ∈ l) : l.contains q = true := by
  induction l with
  | nil => cases h
  | cons a t ih =>
    rcases List.mem_cons.mp h with rfl | h'
    · simp [List.contains_cons]
    · rw [List.contains_cons, ih h']
      simp

/-- C4 counterexample: the claim says cancellation terminates the whole
process tree so that the child *and any children* are dead afterwards;
on POSIX the code only calls `terminate()`/`kill()` on the `Popen`
handle, so in this cancelled run the child's descendant process 77 is
never signalled and survives, even though the log artifact is removed. -/
theorem C4_posix_descendant_survives_counterexample :
    run_terminal_command envCancelX4 (("sleep 99").data)
      = .ok (.cancelled interruptedMsg, cancelEffects envCancelX4)
    ∧ (cancelEffects envCancelX4).killActions = [.sigterm 5]
    ∧ 77 ∈ envCancelX4.child.descendants
    ∧ survivingAfterCancel envCancelX4 = [77]
    ∧ (cancelEffects envCancelX4).logDeleted = true :=
  ⟨rfl, by decide, by decide, by decide, by decide⟩

/-- C4 (amended): on a cancel keystroke at tick `k` of a live foreground
run, the run reports cancellation, removes the foreground log artifact,
and performs the platform-specific termination: the immediate child is
always among the killed processes; on Windows with a successful
`taskkill /F /T` the whole tree is force-killed at once (no graceful
phase, no survivors); on POSIX only the immediate child is signalled
(graceful SIGTERM, then SIGKILL if it does not die within the wait), so
descendant processes are not terminated. -/
theorem C4_cancel_platform_specific_termination (env : RunEnv) (cmd : List Char)
    (k : Nat)
    (hd : isDangerous cmd = false) (ha : env.approve = true)
    (hbud : k ≤ maxDisplayTicks + 1)
    (halive : ∀ t, t ≤ k → procAlive env.child t = true)
    (hesc : ∀ t, t < k → env.esc t = false) (hk : env.esc k = true) :
    run_terminal_command env cmd = .ok (.cancelled interruptedMsg, cancelEffects env)
    ∧ (cancelEffects env).logDeleted = true
    ∧ (cancelEffects env).killActions = cancelKillActions env
    ∧ env.child.pid ∈ killedByActions (cancelKillActions env) env.child
    ∧ (env.platform = .windows → env.taskkillOk = true →
         survivingAfterCancel env = [])
    ∧ (env.platform = .posix →
         ∀ a ∈ cancelKillActions env, a.targetPid = env.child.pid) := by
  refine ⟨?_, rfl, rfl, ?_, ?_, ?_⟩
  · have hpoll : pollLoop env = .cancelledAt k :=
      pollLoop_cancelled env k hbud halive hesc hk
    simp only [run_terminal_command, runBody, hd, ha, hpoll, Bool.false_eq_true,
      if_false, ite_false]
    rfl
  · rcases hplat : env.platform
    · cases htk : env.taskkillOk <;>
        simp [cancelKillActions, killedByActions, hplat, htk]
    · cases hrt : env.child.respondsToTerm <;>
        simp [cancelKillActions, killedByActions, hplat, hrt]
  · intro hw htk
    have hkill : killedByActions (cancelKillActions env) env.child
        = env.child.pid :: env.child.descendants := by
      simp [cancelKillActions, killedByActions, hw, htk]
    unfold survivingAfterCancel
    rw [hkill]
    refine List.filter_eq_nil_iff.mpr ?_
    intro q hq
    simp only [contains_of_mem hq, Bool.not_true]
    exact Bool.false_ne_true
  · intro hp a ha
    cases hrt : env.child.respondsToTerm <;>
      simp [cancelKillActions, hp, hrt] at ha
    · rcases ha with rfl | rfl <;> rfl
    · subst ha; rfl

/-- C4 witness: a POSIX cancel at tick 0 of a responsive child reports
cancellation and kills the immediate child. -/
theorem C4_cancel_platform_specific_termination_witness :
    run_terminal_command envCancelW4 (("sleep 99").data)
      = .ok (.cancelled interruptedMsg, cancelEffects envCancelW4)
    ∧ envCancelW4.child.pid
        ∈ killedByActions (cancelKillActions envCancelW4) envCancelW4.child := by
  have h := C4_cancel_platform_specific_termination envCancelW4 (("sleep 99").data) 0
    (by decide) rfl (by decide) (fun t _ => rfl)
    (fun t ht => absurd ht (Nat.not_lt_zero t)) rfl
  exact ⟨h.1, h.2.2.2.1⟩

/-- C5 counterexample: the claim says the cancellation reaches the caller
of the command-running operation as an exception-like signal; in the
code the `UserInterruptedException` raised mid-run (the `.error` of
`runBody`) is caught by `run_terminal_command`'s own handler, so at this
cancelled run the caller receives a plain `.ok` string result — no
exception escapes the command-running operation. -/
theorem C5_cancellation_not_an_escaping_exception_counterexample :
    runBody envCancelX5 (("sleep 99").data) = .error (cancelEffects envCancelX5)
    ∧ run_terminal_command envCancelX5 (("sleep 99").data)
        = .ok (.cancelled interruptedMsg, cancelEffects envCancelX5) :=
  ⟨rfl, rfl⟩

/-- C5 (amended): on cancellation the exception is confined to
`run_terminal_command`, which returns the `[사용자 중단]` string normally
with the app-level `user_interrupted` flag set; the parent chat loop
observes the flag, skips remaining stream output, prints the
interruption notice at the tool message and returns after consuming
exactly one further event — so the in-flight operation stops cleanly via
the flag, not via exception unwinding. -/
theorem C5_cancellation_via_flag_and_chat_exit (env : RunEnv) (cmd : List Char)
    (k : Nat)
    (hd : isDangerous cmd = false) (ha : env.approve = true)
    (hbud : k ≤ maxDisplayTicks + 1)
    (halive : ∀ t, t ≤ k → procAlive env.child t = true)
    (hesc : ∀ t, t < k → env.esc t = false) (hk : env.esc k = true) :
    run_terminal_command env cmd = .ok (.cancelled interruptedMsg, cancelEffects env)
    ∧ (cancelEffects env).interruptFlagSet = true
    ∧ ∀ (pre : List StreamEvent) (e : StreamEvent) (rest : List StreamEvent),
        StreamEvent.toolMsg ∉ pre →
        chatProcessed true (pre ++ .toolMsg :: e :: rest) = pre.length + 2 := by
  refine ⟨?_, rfl, ?_⟩
  · have hpoll : pollLoop env = .cancelledAt k :=
      pollLoop_cancelled env k hbud halive hesc hk
    simp only [run_terminal_command, runBody, hd, ha, hpoll, Bool.false_eq_true,
      if_false, ite_false]
    rfl
  · intro pre e rest hpre
    exact chatConsume_stop e rest pre hpre

/-- C5 witness: a concrete cancelled run returns normally with the flag
set, and a chat stream with one AI chunk before the tool message stops
after three events. -/
theorem C5_cancellation_via_flag_and_chat_exit_witness :
    run_terminal_command envCancelW5 (("sleep 99").data)
      = .ok (.cancelled interruptedMsg, cancelEffects envCancelW5)
    ∧ chatProcessed true [.aiText, .toolMsg, .aiText, .aiText] = 3 := by
  have h := C5_cancellation_via_flag_and_chat_exit envCancelW5 (("sleep 99").data) 0
    (by decide) rfl (by decide) (fun t _ => rfl)
    (fun t ht => absurd ht (Nat.not_lt_zero t)) rfl
  refine ⟨h.1, ?_⟩
  have h3 := h.2.2 [.aiText] .aiText [.aiText] (by decide)
  simpa using h3

/-- C6 counterexample: the claimed erase-equals-previous-count invariant
fails for the streaming file-content preview: after a first redraw of 3
visual lines, the second redraw erases only 2 lines (the fixed
cursor-up-2 of `_update_screen`), not the 3 lines recorded before. -/
theorem C6_preview_breaks_erase_invariant_counterexample :
    eraseMatchesPrev 0
        (previewTrace (fun _ => 1) 80 0
          [("a\\nb\\nc").data, ("a\\nb\\nc\\nd").data]) = false
    ∧ (previewTrace (fun _ => 1) 80 0
          [("a\\nb\\nc").data, ("a\\nb\\nc\\nd").data]).map
        (fun st => (st.eraseUp, st.recorded)) = [(0, 3), (2, 4)] :=
  ⟨by decide, by decide⟩

/-- C6 (amended): the erase-equals-previous-recorded-count invariant
holds for the log-tail viewer (`TerminalOutputViewer.update`), which also
records exactly the number of lines it prints; the streaming
file-content preview does not satisfy it — it instead erases a fixed 2
lines whenever the previous redraw recorded a positive count (and
nothing on the first draw), repainting only from the previous last
visual line onward. -/
theorem C6_viewer_erase_invariant_preview_fixed_two :
    (∀ (maxLines last : Nat) (draws : List (List Char)),
        eraseMatchesPrev last (viewerTrace maxLines last draws) = true)
    ∧ (∀ (maxLines last : Nat) (draws : List (List Char)),
        ((viewerTrace maxLines last draws).all
          (fun st => st.printedNow == st.recorded)) = true)
    ∧ (∀ (w : Char → Nat) (cols last : Nat) (draws : List (List Char)),
        eraseTwoRule last (previewTrace w cols last draws) = true) :=
  ⟨fun maxLines last draws => viewerTrace_invariant maxLines draws last,
   fun maxLines last draws => viewerTrace_printed_eq_recorded maxLines draws last,
   fun w cols last draws => previewTrace_eraseTwo w cols draws last⟩

/-- C7: feeding the preview handler the two fragments
`{"filename":"a.txt","content":"line1\n` and `line2"}` extracts filename
`a.txt` (header printed during the first feed, title `a.txt`), marks the
field final on the second feed, and the unescaped value renders as
exactly the two logical lines `line1` and `line2`; moreover, for any
fragment sequence, the header is only ever printed once a filename has
been recognized in the accumulated buffer. -/
theorem C7_streaming_preview_two_line_scenario :
    (feedAll phInit [previewFrag1, previewFrag2]).filename = some (("a.txt").data)
    ∧ headerTitle (feedAll phInit [previewFrag1, previewFrag2]) = ("a.txt").data
    ∧ (handle_chunk phInit previewFrag1).2.1 = true
    ∧ (handle_chunk (handle_chunk phInit previewFrag1).1 previewFrag2).2.2 = true
    ∧ (cleanValue (feedAll phInit [previewFrag1, previewFrag2]).fullValue).splitOn '\n'
        = [("line1").data, ("line2").data]
    ∧ previewVisual (fun _ => 1) 80 (feedAll phInit [previewFrag1, previewFrag2]).fullValue
        = [((("1").data), (("line1").data)), ((("2").data), (("line2").data))]
    ∧ ∀ frags : List (List Char),
        headerOnlyWithFilename (feedAll phInit frags) = true := by
  refine ⟨by decide, by decide, by decide, by decide, by decide, by decide, ?_⟩
  intro frags
  suffices hgen : ∀ (fr : List (List Char)) (st : PHState),
      headerOnlyWithFilename st = true →
      headerOnlyWithFilename (feedAll st fr) = true by
    exact hgen frags phInit (by decide)
  intro fr
  induction fr with
  | nil => intro st h; exact h
  | cons f rest ih =>
    intro st h
    exact ih ((handle_chunk st f).1) (handle_chunk_header_inv st f h)

/-- C8: `kill_background_process` with a PID matching no registry entry
returns a not-found result (the no-processes message on an empty
registry, the PID-not-found message otherwise), removes nothing from the
registry, and sends no signal to any process. -/
theorem C8_kill_unknown_pid_is_noop (platform : Platform) (tk resp : Bool)
    (reg : List RegEntry) (pid : Nat)
    (h : ∀ e ∈ reg, e.pid ≠ pid) :
    kill_background_process platform tk resp reg pid
      = ((if reg.isEmpty then .noProcesses else .notFound pid), reg, []) := by
  have hf : reg.find? (fun e => e.pid == pid) = none := by
    rw [List.find?_eq_none]
    intro e he
    simpa using h e he
  by_cases hr : reg.isEmpty
  · simp [kill_background_process, hr]
  · simp [kill_background_process, hr, hf]

/-- C8 witness: killing PID 9 against a registry holding only PID 3. -/
theorem C8_kill_unknown_pid_is_noop_witness :
    kill_background_process .posix true true
        [{ pid := 3, logFile := [], command := [], startTick := 0 }] 9
      = (.notFound 9, [{ pid := 3, logFile := [], command := [], startTick := 0 }], []) := by
  have h := C8_kill_unknown_pid_is_noop .posix true true
    [{ pid := 3, logFile := [], command := [], startTick := 0 }] 9 (by decide)
  simpa using h

/-- C9: with no TTY attached (no pending console input on Windows, end
of file on POSIX stdin) the non-blocking cancel poll returns `false`;
the embedding is a total function, so no exception is raised. -/
theorem C9_no_tty_poll_returns_false (c : Console)
    (h : nonInteractiveConsole c) :
    check_esc_pressed c = false := by
  obtain ⟨hw, hu⟩ := h
  unfold check_esc_pressed
  by_cases hc : c.isWindows = true
  · simp [hc, hw hc]
  · have hr := hu (by simpa using hc)
    simp [hc, hr]

/-- C9 witness: a POSIX console at end of file polls `false`. -/
theorem C9_no_tty_poll_returns_false_witness :
    nonInteractiveConsole
        { isWindows := false, kbhit := false, nextKey := 'a'
        , selectReady := true, readOne := none }
    ∧ check_esc_pressed
        { isWindows := false, kbhit := false, nextKey := 'a'
        , selectReady := true, readOne := none } = false :=
  ⟨by decide, C9_no_tty_poll_returns_false _ (by decide)⟩

theorem list_files_effects_under (treeFn : PathComps → List Char × Nat) (fs : Fs)
    (base : PathComps) (p : PyPath) :
    allEffectsUnder base (list_files treeFn fs base p).2 = true := by
  unfold list_files
  by_cases hs : is_safe_path p base = true
  · have hpre : base.isPrefixOf (resolveUnder base p) = true := by
      rw [← is_safe_path_eq]; exact hs
    simp only [hs, Bool.not_true, Bool.false_eq_true, if_false]
    split <;> [skip; split] <;> simp [allEffectsUnder, FsEffect.target, hpre]
  · have hs' : is_safe_path p base = false := by simpa using hs
    simp [hs', allEffectsUnder]

theorem read_file_effects_under (fs : Fs) (base : PathComps) (p : PyPath) :
    allEffectsUnder base (read_file fs base p).2 = true := by
  unfold read_file
  by_cases hs : is_safe_path p base = true
  · have hpre : base.isPrefixOf (resolveUnder base p) = true := by
      rw [← is_safe_path_eq]; exact hs
    simp only [hs, Bool.not_true, Bool.false_eq_true, if_false]
    split <;> simp [allEffectsUnder, FsEffect.target, hpre]
  · have hs' : is_safe_path p base = false := by simpa using hs
    simp [hs', allEffectsUnder]

theorem write_file_effects_under (base : PathComps) (approve : Bool) (p : PyPath)
    (content : List Char) :
    allEffectsUnder base (write_file base approve p content).2 = true := by
  unfold write_file
  by_cases hs : is_safe_path p base = true
  · have hpre : base.isPrefixOf (resolveUnder base p) = true := by
      rw [← is_safe_path_eq]; exact hs
    simp only [hs, Bool.not_true, Bool.false_eq_true, if_false]
    split <;> simp [allEffectsUnder, FsEffect.target, hpre]
  · have hs' : is_safe_path p base = false := by simpa using hs
    simp [hs', allEffectsUnder]

theorem edit_file_effects_under (fs : Fs) (base : PathComps) (approve : Bool)
    (p : PyPath) (targetText replacementText : List Char) :
    allEffectsUnder base (edit_file fs base approve p targetText replacementText).2
      = true := by
  unfold edit_file
  by_cases hs : is_safe_path p base = true
  · have hpre : base.isPrefixOf (resolveUnder base p) = true := by
      rw [← is_safe_path_eq]; exact hs
    simp only [hs, Bool.not_true, Bool.false_eq_true, if_false]
    split
    · simp [allEffectsUnder, FsEffect.target, hpre]
    · split
      · simp [allEffectsUnder, FsEffect.target, hpre]
      · split <;> [skip; split] <;> [skip; skip; split] <;>
          simp [allEffectsUnder, FsEffect.target, hpre]
  · have hs' : is_safe_path p base = false := by simpa using hs
    simp [hs', allEffectsUnder]

/-- C10: every file tool is guarded by `is_safe_path`: whenever the
resolved target is not the base directory or below it, the tool returns
its security warning with an empty filesystem-effect trace; and on every
input whatsoever, every filesystem access any of the four tools performs
— including every write — targets a resolved path under the base
directory. -/
theorem C10_file_tools_confined_to_base (treeFn : PathComps → List Char × Nat)
    (fs : Fs) (base : PathComps) (p : PyPath) (approve : Bool)
    (content targetText replacementText : List Char) :
    (base.isPrefixOf (resolveUnder base p) = false →
        list_files treeFn fs base p = (listWarningMsg, [])
      ∧ read_file fs base p = (readWarningMsg, [])
      ∧ write_file base approve p content = (writeWarningMsg, [])
      ∧ edit_file fs base approve p targetText replacementText = (editWarningMsg, []))
    ∧ allEffectsUnder base (list_files treeFn fs base p).2 = true
    ∧ allEffectsUnder base (read_file fs base p).2 = true
    ∧ allEffectsUnder base (write_file base approve p content).2 = true
    ∧ allEffectsUnder base
        (edit_file fs base approve p targetText replacementText).2 = true := by
  refine ⟨?_, list_files_effects_under treeFn fs base p,
    read_file_effects_under fs base p,
    write_file_effects_under base approve p content,
    edit_file_effects_under fs base approve p targetText replacementText⟩
  intro h
  have hs : is_safe_path p base = false := by rw [is_safe_path_eq]; exact h
  refine ⟨?_, ?_, ?_, ?_⟩ <;>
    simp [list_files, read_file, write_file, edit_file, hs]

/-- C10 witness: the relative path `../x` resolves outside the base
directory `w`, so `write_file` refuses it with the security warning and
no filesystem effect, and its effect trace is trivially confined. -/
theorem C10_file_tools_confined_to_base_witness :
    baseW.isPrefixOf (resolveUnder baseW badPathW) = false
    ∧ write_file baseW true badPathW [] = (writeWarningMsg, [])
    ∧ allEffectsUnder baseW (write_file baseW true badPathW []).2 = true := by
  have h := C10_file_tools_confined_to_base (fun _ => ([], 0)) fsEmptyW baseW badPathW
    true [] [] []
  exact ⟨by decide, (h.1 (by decide)).2.2.1, h.2.2.2.1⟩

end CodeAgent
